import Mathlib

/-!
Verification development for the finance-advisor repository.

The Python services are shallowly embedded in Lean:
* `decimal.Decimal` amounts are modelled as exact rationals (`ℚ`);
* database rows are Lean structures, a database session is an explicit
  `DB` state, and SQLAlchemy queries become list filters;
* fallible Python code (exceptions) returns `Except PyError`;
* the external JSON decoder (`json.loads`, part of the Python standard
  library, not of this repository) is a parameter of the parsing
  functions.
Source file and line references are given next to each definition.
-/

set_option autoImplicit false

namespace Advisor

/-- Python exception kinds that the embedded code can surface. -/
inductive PyError where
  | valueError
  | typeError
  | attributeError
  | validationError
  | jsonDecodeError
  | multipleResultsFound
  deriving DecidableEq, Repr

/-! ## Calendar model (Python `datetime.date` / `datetime.datetime`)

The services only use the calendar-date part of `datetime` values
(construction, comparison, and subtraction of one day), so a date is a
`(year, month, day)` triple ordered lexicographically, exactly the
order Python uses on `datetime` values. -/

/-- A calendar date `(year, month, day)`. -/
structure Date where
  year : Nat
  month : Nat
  day : Nat
  deriving DecidableEq, Repr

/-- Gregorian leap-year rule, as implemented by Python's `calendar`. -/
def isLeapYear (y : Nat) : Bool :=
  (y % 4 == 0 && y % 100 != 0) || (y % 400 == 0)

/-- Number of days in month `m` of year `y` (for `1 ≤ m ≤ 12`). -/
def daysInMonth (y m : Nat) : Nat :=
  if m == 2 then (if isLeapYear y then 29 else 28)
  else if m == 4 || m == 6 || m == 9 || m == 11 then 30
  else 31

/-- Strict lexicographic order on dates, as Python compares `datetime`s. -/
def Date.blt (a b : Date) : Bool :=
  a.year < b.year ||
    (a.year == b.year &&
      (a.month < b.month || (a.month == b.month && a.day < b.day)))

/-- Non-strict lexicographic order on dates. -/
def Date.ble (a b : Date) : Bool :=
  a.blt b || a == b

/-- `datetime(year, month, day)`: Python validates `MINYEAR ≤ year ≤ MAXYEAR`,
`1 ≤ month ≤ 12` and `1 ≤ day ≤ days-in-month`, raising `ValueError`
otherwise (the raise in `get_up_to_date_financial_snapshot_current_month`
for month 13 happens here). -/
def mkDatetime (y m d : Nat) : Except PyError Date :=
  if 1 ≤ y ∧ y ≤ 9999 ∧ 1 ≤ m ∧ m ≤ 12 ∧ 1 ≤ d ∧ d ≤ daysInMonth y m then
    .ok ⟨y, m, d⟩
  else
    .error .valueError

/-- `d - timedelta(days=1)`: the previous calendar day. -/
def Date.prevDay (d : Date) : Date :=
  if 2 ≤ d.day then ⟨d.year, d.month, d.day - 1⟩
  else if 2 ≤ d.month then ⟨d.year, d.month - 1, daysInMonth d.year (d.month - 1)⟩
  else ⟨d.year - 1, 12, 31⟩

/-- The last calendar day of month `m` of year `y`. -/
def monthEndDate (y m : Nat) : Date :=
  ⟨y, m, daysInMonth y m⟩

/-! ## Data model (`advisor/data_models.py`, `advisor/db/db_models.py`) -/

/-- `TransactionType` (data_models.py lines 10-14):
`DEBIT = "debit"  # Outcome`, `CREDIT = "credit"  # Income`. -/
inductive TransactionType where
  | debit
  | credit
  deriving DecidableEq, Repr

/-- `PeriodEnum` (data_models.py lines 30-33). -/
inductive PeriodEnum where
  | weekly
  | monthly
  | yearly
  deriving DecidableEq, Repr

/-- `CategorySpendModel` (data_models.py lines 124-128). -/
structure CategorySpendModel where
  category : String
  total_amount : ℚ
  currency : String
  transaction_count : Nat
  deriving DecidableEq, Repr

/-- `BudgetStatusModel` (data_models.py lines 131-137). -/
structure BudgetStatusModel where
  category : String
  limit_amount : Option ℚ
  spent_amount : Option ℚ
  remaining_amount : Option ℚ
  currency : String
  is_overspent : Bool
  deriving DecidableEq, Repr

/-- Row of `NORMALIZED_TRANSACTION` (db_models.py lines 175-227), restricted
to the columns the snapshot engine reads or writes. -/
structure NormalizedTransaction where
  id : Nat
  user_id : Nat
  type : TransactionType
  amount : ℚ
  date : Date
  currency : String
  resolved_category : String
  financial_period_snapshot_id : Option Nat
  deriving DecidableEq, Repr

/-- Row of `BUDGET_THRESHOLD` (db_models.py lines 230-268).  The service
reads `budget_threshold.category.name` through the ORM relationship;
the embedding stores that category name directly. -/
structure BudgetThreshold where
  id : Nat
  user_id : Nat
  category_name : String
  period : PeriodEnum
  limit_amount : ℚ
  currency : String
  is_active : Bool
  start_date : Date
  end_date : Option Date
  deriving DecidableEq, Repr

/-- Row of `FINANCIAL_PERIOD_SNAPSHOT` (db_models.py lines 271-309).
The JSON-list columns are kept as typed lists under their declared column
names `category_spend` / `budget_status`.  The service layer accesses
this data under different names (`categories_spends` /
`budgets_statuses`); those accesses are modelled by name below
(`snapshotGetattrCategorySpends`, `mkFinancialPeriodSnapshotRow`,
`map_db_snapshot_to_model`) and raise, as they do in the source. -/
structure FinancialPeriodSnapshot where
  id : Nat
  user_id : Nat
  period : PeriodEnum
  start_date : Date
  end_date : Date
  total_income : ℚ
  total_outcome : ℚ
  savings : ℚ
  savings_rate : ℚ
  category_spend : List CategorySpendModel
  budget_status : List BudgetStatusModel
  created_at : Nat
  computed_at : Nat
  deriving DecidableEq, Repr

/-- `FinancialPeriodSnapshotModel` (data_models.py lines 140-151): the
Pydantic view returned to the API; it carries no row id and no
timestamps. -/
structure FinancialPeriodSnapshotModel where
  period : PeriodEnum
  start_date : Date
  end_date : Date
  total_income : ℚ
  total_outcome : ℚ
  savings : ℚ
  savings_rate : ℚ
  categories_spends : List CategorySpendModel
  budgets_statuses : List BudgetStatusModel
  deriving DecidableEq, Repr

/-- The persistent state visible to the snapshot engine: the snapshot,
normalized-transaction and budget-threshold tables, plus the sequence
feeding new snapshot primary keys. -/
structure DB where
  snapshots : List FinancialPeriodSnapshot
  transactions : List NormalizedTransaction
  thresholds : List BudgetThreshold
  next_snapshot_id : Nat
  deriving DecidableEq, Repr

/-- `Result.scalar_one_or_none()`: `None` on no row, the row when unique,
`MultipleResultsFound` otherwise. -/
def scalarOneOrNone {α : Type} (rows : List α) : Except PyError (Option α) :=
  match rows with
  | [] => .ok none
  | [x] => .ok (some x)
  | _ => .error .multipleResultsFound

/-! ## Budget Evaluation Engine (`advisor/service/budgets_service.py`) -/

/-- The threshold query (budgets_service.py lines 29-40): active thresholds
of the user whose date range covers `[start_date, end_date]`.  A SQL
comparison against a NULL `end_date` is not satisfied. -/
def loadBudgetThresholds (thresholds : List BudgetThreshold) (user_id : Nat)
    (start_date end_date : Date) : List BudgetThreshold :=
  thresholds.filter fun t =>
    t.user_id == user_id &&
      t.start_date.ble start_date &&
      (match t.end_date with
       | some e => end_date.ble e
       | none => false) &&
      t.is_active

/-- Python `dict` assignment `d[k] = v`: an existing key keeps its
position and gets the new value, a new key is appended. -/
def dictInsert {α : Type} (d : List (String × α)) (k : String) (v : α) :
    List (String × α) :=
  if (d.map Prod.fst).contains k then
    d.map fun p => if p.1 == k then (p.1, v) else p
  else
    d ++ [(k, v)]

/-- Python `dict.get(k)`: the value at the key, if present. -/
def dictGet {α : Type} (d : List (String × α)) (k : String) : Option α :=
  (d.find? fun p => p.1 == k).map Prod.snd

/-- The per-spend status of budgets_service.py lines 51-70. -/
def statusForSpend (thmap : List (String × BudgetThreshold))
    (spend : CategorySpendModel) : BudgetStatusModel :=
  match dictGet thmap spend.category with
  | some th =>
      { category := spend.category
        limit_amount := some th.limit_amount
        spent_amount := some spend.total_amount
        remaining_amount := some (th.limit_amount - spend.total_amount)
        currency := spend.currency
        is_overspent := decide (th.limit_amount - spend.total_amount ≤ 0) }
  | none =>
      { category := spend.category
        limit_amount := none
        spent_amount := some spend.total_amount
        remaining_amount := none
        currency := spend.currency
        is_overspent := false }

/-- `BudgetsService.calculate_budget_statuses_per_category_spends`
(budgets_service.py lines 21-72).  Loads covering active thresholds;
with none it returns `[]` at once; otherwise it indexes thresholds by
category name and builds one status per spend category in a dict keyed
by category. -/
def calculate_budget_statuses_per_category_spends
    (thresholds : List BudgetThreshold) (user_id : Nat)
    (start_date end_date : Date)
    (category_spends : List CategorySpendModel) : List BudgetStatusModel :=
  let budget_thresholds := loadBudgetThresholds thresholds user_id start_date end_date
  if budget_thresholds.isEmpty then
    []
  else
    let thmap := budget_thresholds.foldl
      (fun d t => dictInsert d t.category_name t) []
    let statuses := category_spends.foldl
      (fun d spend => dictInsert d spend.category (statusForSpend thmap spend)) []
    statuses.map Prod.snd

/-! ## Financial Snapshot Engine (`advisor/service/finances_service.py`)

The ORM class `FinancialPeriodSnapshot` maps its JSON columns as
`category_spend` / `budget_status` (db_models.py lines 291-292), while
finances_service.py addresses that data as `categories_spends` /
`budgets_statuses`.  Python resolves such accesses by name at run time,
so the service raises: `AttributeError` on the attribute read at line 94,
`TypeError` from the declarative constructor at lines 137-150, and
pydantic `ValidationError` in `map_db_snapshot_to_model`.  The embedding
keeps the name resolution explicit so each failure arises from the
declared names rather than by fiat. -/

/-- The mapped attribute names of the ORM class `FinancialPeriodSnapshot`
(db_models.py lines 271-309): the table columns — note `category_spend`
and `budget_status` — plus the `user` and `transactions` relationships. -/
def financialPeriodSnapshotAttrs : List String :=
  ["id", "external_id", "period", "start_date", "end_date", "total_income",
   "total_outcome", "savings", "savings_rate", "category_spend",
   "budget_status", "user_id", "created_at", "computed_at", "user",
   "transactions"]

/-- `getattr(row, name)` for the category-spend JSON data of a loaded
snapshot row: the class carries that data only under the column
attribute `category_spend`; any other name raises `AttributeError`.
finances_service.py line 94 reads the name `categories_spends`. -/
def snapshotGetattrCategorySpends (s : FinancialPeriodSnapshot)
    (name : String) : Except PyError (List CategorySpendModel) :=
  if name == "category_spend" then .ok s.category_spend
  else .error .attributeError

/-- The SQLAlchemy declarative constructor applied to
`FinancialPeriodSnapshot`: every keyword argument must name a mapped
attribute of the class, otherwise it raises `TypeError` (invalid keyword
argument).  `row` is the row that would be built were every keyword
valid. -/
def mkFinancialPeriodSnapshotRow (kwarg_names : List String)
    (row : FinancialPeriodSnapshot) : Except PyError FinancialPeriodSnapshot :=
  if kwarg_names.all (fun k => financialPeriodSnapshotAttrs.contains k) then
    .ok row
  else .error .typeError

/-- The keyword names of the constructor call at finances_service.py
lines 137-150. -/
def snapshotCreateKwargs : List String :=
  ["period", "start_date", "end_date", "total_income", "total_outcome",
   "savings", "savings_rate", "categories_spends", "budgets_statuses",
   "user_id", "created_at", "computed_at"]

/-- The keys produced by `Base.to_dict()` on a snapshot row (db_models.py
lines 33-39): one key per table column, under the column names. -/
def snapshotToDictKeys : List String :=
  ["id", "external_id", "period", "start_date", "end_date", "total_income",
   "total_outcome", "savings", "savings_rate", "category_spend",
   "budget_status", "user_id", "created_at", "computed_at"]

/-- The field names of pydantic `FinancialPeriodSnapshotModel`, all
required (data_models.py lines 140-151). -/
def snapshotModelFieldNames : List String :=
  ["period", "start_date", "end_date", "total_income", "total_outcome",
   "savings", "savings_rate", "categories_spends", "budgets_statuses"]

/-- `FinancesService.map_db_snapshot_to_model` (finances_service.py lines
169-171): `FinancialPeriodSnapshotModel(**db_snapshot.to_dict())`.
Pydantic v2 ignores extra keys but requires every required field name
among the supplied keys; `to_dict` supplies the column names, so
`categories_spends` and `budgets_statuses` are missing and the call
raises `ValidationError`.  The `.ok` branch is the value that would
result were every field supplied, with the JSON data drawn from the
row's columns. -/
def map_db_snapshot_to_model (s : FinancialPeriodSnapshot) :
    Except PyError FinancialPeriodSnapshotModel :=
  if snapshotModelFieldNames.all (fun k => snapshotToDictKeys.contains k) then
    .ok { period := s.period
          start_date := s.start_date
          end_date := s.end_date
          total_income := s.total_income
          total_outcome := s.total_outcome
          savings := s.savings
          savings_rate := s.savings_rate
          categories_spends := s.category_spend
          budgets_statuses := s.budget_status }
  else .error .validationError

/-- One iteration of the fold of finances_service.py lines 101-117 over an
unlinked transaction: lines 102-105 route the amount — `CREDIT` into
`missed_outcome`, everything else (`DEBIT`) into `missed_income` — then
lines 107-117 update that category's running total and count.
State: `(missed_outcome, missed_income, category_mapped_spend_model)`. -/
def foldUnlinkedTransaction
    (st : ℚ × ℚ × List (String × CategorySpendModel))
    (t : NormalizedTransaction) : ℚ × ℚ × List (String × CategorySpendModel) :=
  let missed_outcome := if t.type == .credit then st.1 + t.amount else st.1
  let missed_income := if t.type == .credit then st.2.1 else st.2.1 + t.amount
  let catmap :=
    match dictGet st.2.2 t.resolved_category with
    | none =>
        dictInsert st.2.2 t.resolved_category
          { category := t.resolved_category
            total_amount := t.amount
            currency := t.currency
            transaction_count := 1 }
    | some c =>
        dictInsert st.2.2 t.resolved_category
          { c with
            total_amount := c.total_amount + t.amount
            transaction_count := c.transaction_count + 1 }
  (missed_outcome, missed_income, catmap)

/-- `FinancesService._recalculate_finance_snapshot_for_period`
(finances_service.py lines 82-167).  Lines 91-95 build the category map
from `financial_snapshot.categories_spends` — on the update path this
attribute read raises `AttributeError` (the ORM attribute is
`category_spend`).  On the create path the fold over the unlinked
transactions and the budget evaluation run, and the constructor call at
lines 137-150 then raises `TypeError`: its keywords include
`categories_spends` / `budgets_statuses`, which the ORM class rejects.
So this function never returns a snapshot.  The mutation branch of
lines 151-166 (unreachable after the line-94 read) is still written out:
the assignments to `categories_spends` / `budgets_statuses` at lines
165-166 would create shadow instance attributes, leaving the mapped
columns untouched. -/
def _recalculate_finance_snapshot_for_period
    (thresholds : List BudgetThreshold) (user_id : Nat)
    (start_date end_date : Date)
    (financial_snapshot : Option FinancialPeriodSnapshot)
    (transactions_not_included_in_snapshot : List NormalizedTransaction)
    (now : Nat) : Except PyError FinancialPeriodSnapshot :=
  match (match financial_snapshot with
         | some s =>
             (snapshotGetattrCategorySpends s "categories_spends").map
               (fun (l : List CategorySpendModel) =>
                 l.foldl
                   (fun (d : List (String × CategorySpendModel))
                     (c : CategorySpendModel) => dictInsert d c.category c)
                   [])
         | none => .ok []) with
  | .error e => .error e
  | .ok init_map =>
    let folded := transactions_not_included_in_snapshot.foldl
      foldUnlinkedTransaction (0, 0, init_map)
    let missed_outcome := folded.1
    let missed_income := folded.2.1
    let spends := folded.2.2.map Prod.snd
    let budget_statuses := calculate_budget_statuses_per_category_spends
      thresholds user_id start_date end_date spends
    match financial_snapshot with
    | none =>
        let savings_rate : ℚ :=
          if 0 < missed_income ∧ 0 < missed_income - missed_outcome then
            ((missed_income - missed_outcome) / missed_income) * 100
          else 0
        mkFinancialPeriodSnapshotRow snapshotCreateKwargs
          { id := 0
            user_id := user_id
            period := .monthly
            start_date := start_date
            end_date := end_date
            total_income := missed_income
            total_outcome := missed_outcome
            savings := missed_income - missed_outcome
            savings_rate := savings_rate
            category_spend := spends
            budget_status := budget_statuses
            created_at := now
            computed_at := now }
    | some s =>
        let total_income := s.total_income + missed_income
        let total_outcome := s.total_outcome + missed_outcome
        let savings_rate : ℚ :=
          if 0 < total_income then
            ((total_income - total_outcome) / total_income) * 100
          else 0
        .ok { s with
              total_income := total_income
              total_outcome := s.total_outcome + missed_outcome
              savings := total_income - total_outcome
              savings_rate := savings_rate
              computed_at := now }

/-- The snapshot lookup of finances_service.py lines 39-47. -/
def findSnapshotRows (db : DB) (user_id : Nat) (start_date end_date : Date) :
    List FinancialPeriodSnapshot :=
  db.snapshots.filter fun s =>
    s.user_id == user_id && s.start_date == start_date && s.end_date == end_date

/-- The unlinked-transaction query of finances_service.py lines 49-60:
the user's normalized transactions with `start_date ≤ date < end_date`
and no snapshot link. -/
def unlinkedTransactionRows (db : DB) (user_id : Nat)
    (start_date end_date : Date) : List NormalizedTransaction :=
  db.transactions.filter fun t =>
    t.user_id == user_id && start_date.ble t.date && t.date.blt end_date &&
      t.financial_period_snapshot_id == none

/-- The link-assignment loop (finances_service.py lines 75-78): every
query-selected transaction gets the snapshot's primary key as its
`financial_period_snapshot_id`; rows are identified by primary key. -/
def linkTransactionsToSnapshot
    (transactions folded : List NormalizedTransaction)
    (snapshot_id : Nat) : List NormalizedTransaction :=
  transactions.map fun t =>
    if (folded.map (·.id)).contains t.id then
      { t with financial_period_snapshot_id := some snapshot_id }
    else t

/-- `FinancesService.get_up_to_date_financial_snapshot_current_month`
(finances_service.py lines 28-80).  Computes the period bounds (a
`ValueError` from `datetime` propagates), loads the snapshot and the
unlinked transactions, takes the fast path when the snapshot exists and
nothing is unlinked (the mapping there raises `ValidationError`),
otherwise recomputes — which raises inside the first, read-only session,
so the write session of lines 69-78 never opens and the error leaves the
state untouched.  The persist-and-link branch after a successful
recomputation is kept for completeness; it is unreachable (provably,
the recomputation always errors), which also makes the
error-after-write of a failing final mapping unreachable. -/
def get_up_to_date_financial_snapshot_current_month
    (user_id current_month current_year : Nat) (now : Nat) (db : DB) :
    Except PyError (FinancialPeriodSnapshotModel × DB) :=
  match mkDatetime current_year current_month 1 with
  | .error e => .error e
  | .ok start_date =>
    match mkDatetime current_year (current_month + 1) 1 with
    | .error e => .error e
    | .ok first_of_next =>
      let end_date := first_of_next.prevDay
      match scalarOneOrNone (findSnapshotRows db user_id start_date end_date) with
      | .error e => .error e
      | .ok financial_snapshot =>
        let transactions_not_included_in_snapshot :=
          unlinkedTransactionRows db user_id start_date end_date
        match financial_snapshot, transactions_not_included_in_snapshot with
        | some snap, [] =>
            match map_db_snapshot_to_model snap with
            | .error e => .error e
            | .ok model => .ok (model, db)
        | _, _ =>
            match _recalculate_finance_snapshot_for_period
              db.thresholds user_id start_date end_date financial_snapshot
              transactions_not_included_in_snapshot now with
            | .error e => .error e
            | .ok recalculated =>
                let persisted :=
                  match financial_snapshot with
                  | some _ => recalculated
                  | none => { recalculated with id := db.next_snapshot_id }
                let snapshots' :=
                  match financial_snapshot with
                  | some s => db.snapshots.map fun x => if x.id == s.id then persisted else x
                  | none => db.snapshots ++ [persisted]
                let transactions' := linkTransactionsToSnapshot db.transactions
                  transactions_not_included_in_snapshot persisted.id
                let next_id :=
                  match financial_snapshot with
                  | some _ => db.next_snapshot_id
                  | none => db.next_snapshot_id + 1
                match map_db_snapshot_to_model persisted with
                | .error e => .error e
                | .ok model =>
                    .ok (model,
                      { snapshots := snapshots'
                        transactions := transactions'
                        thresholds := db.thresholds
                        next_snapshot_id := next_id })

/-- `get_current_month_financial_state` (api/v1/finances.py lines 26-36):
the route reads the actual current UTC month and year and passes them,
with the hardcoded user id 1, to the snapshot engine. -/
def get_current_month_financial_state (today : Date) (now : Nat) (db : DB) :
    Except PyError (FinancialPeriodSnapshotModel × DB) :=
  get_up_to_date_financial_snapshot_current_month 1 today.month today.year now db

/-! ## Orchestration Service batch entry point (`advisor/llm/llm_service.py`)

`batch_invoke_structured` (lines 163-191) builds one task per request and
awaits `asyncio.gather(*tasks, return_exceptions=False)`.  Two aspects are
modelled separately: the value-level outcome (gather returns the task
results positionally, and any task's exception propagates and aborts the
batch), and the semaphore discipline of `_process_one` (each task performs
`acquire; invoke; release` and at most `max_concurrent` invocations are in
flight). -/

/-- Value-level outcome of `batch_invoke_structured`: the `i`-th entry of a
successful result is the outcome of the `i`-th request, and any failing
request aborts the whole batch with an error. -/
def batch_invoke_structured {Req E T : Type} (invoke : Req → Except E T) :
    List Req → Except E (List T)
  | [] => .ok []
  | r :: rs =>
      match invoke r with
      | .error e => .error e
      | .ok t =>
          match batch_invoke_structured invoke rs with
          | .error e => .error e
          | .ok ts => .ok (t :: ts)

/-- Phase of one `_process_one` task: before the semaphore, holding it
during `invoke_structured`, or finished. -/
inductive TaskPhase where
  | waiting
  | running
  | finished
  deriving DecidableEq, Repr

/-- Scheduler-visible state of a batch run: the semaphore counter and the
phase of each task. -/
structure BatchExecState where
  sem : Nat
  tasks : List TaskPhase
  deriving DecidableEq, Repr

/-- Initial state: `asyncio.Semaphore(max_concurrent)` and one waiting task
per request. -/
def initBatchState (max_concurrent request_count : Nat) : BatchExecState :=
  ⟨max_concurrent, List.replicate request_count .waiting⟩

/-- Cooperative transitions of the batch run: a waiting task may enter
`async with semaphore` when the counter is positive; a running task's
invocation finishes and releases the semaphore. -/
inductive BatchStep : BatchExecState → BatchExecState → Prop where
  | acquire (s : BatchExecState) (i : Nat) :
      0 < s.sem → s.tasks[i]? = some .waiting →
      BatchStep s ⟨s.sem - 1, s.tasks.set i .running⟩
  | release (s : BatchExecState) (i : Nat) :
      s.tasks[i]? = some .running →
      BatchStep s ⟨s.sem + 1, s.tasks.set i .finished⟩

/-- Number of invocations currently in flight. -/
def runningCount (s : BatchExecState) : Nat :=
  s.tasks.countP (· == TaskPhase.running)

/-! ## Categorization Pipeline (`advisor/service/transactions_service.py`)

The two model calls inside `normalize_and_categorize_single_transaction`
go to the external generation provider, so they enter the embedding as
oracle functions; everything around them is translated from the source. -/

/-- Row of `RAW_TRANSACTION` restricted to the fields the pipeline control
flow reads (the remaining payload is consumed only by the oracles). -/
structure RawTransactionRow where
  id : Nat
  user_id : Nat
  deriving DecidableEq, Repr

/-- Normalized-transaction row as produced by the pipeline: the category
data plus the links stamped in `normalize_and_categorize_single_transaction`. -/
structure PipelineNormalizedRow where
  user_id : Nat
  raw_transaction_id : Option Nat
  resolved_category : String
  deriving DecidableEq, Repr

/-- `CategorizationResultModel` (data_models.py lines 60-82), value part. -/
structure CategorizationResult where
  predicted_category : String
  category_confidence : ℚ
  deriving DecidableEq, Repr

/-- State visible to the pipeline: the raw table and the normalized table. -/
structure PipelineDB where
  raw_transactions : List RawTransactionRow
  normalized : List PipelineNormalizedRow
  deriving DecidableEq, Repr

/-- `TransactionsService.get_user_raw_transactions` (transactions_service.py
lines 28-39): the user's raw transactions with no linked normalized
transaction (outer join filtered on `NormalizedTransaction.id IS NULL`). -/
def get_user_raw_transactions (db : PipelineDB) (user_id : Nat) :
    List RawTransactionRow :=
  db.raw_transactions.filter fun r =>
    r.user_id == user_id &&
      !(db.normalized.any fun n => n.raw_transaction_id == some r.id)

/-- `TransactionsService.normalize_and_categorize_single_transaction`
(transactions_service.py lines 73-83): normalize via the model, categorize
via the model, then stamp `raw_transaction_id` and `user_id`. -/
def normalize_and_categorize_single_transaction {E : Type}
    (normalizeOracle : RawTransactionRow → Except E RawTransactionRow)
    (categorizeOracle : RawTransactionRow → List String → Except E CategorizationResult)
    (raw_transaction : RawTransactionRow) (categories : List String) :
    Except E PipelineNormalizedRow :=
  match normalizeOracle raw_transaction with
  | .error e => .error e
  | .ok normalized =>
    match categorizeOracle normalized categories with
    | .error e => .error e
    | .ok categorization =>
        .ok { user_id := raw_transaction.user_id
              raw_transaction_id := some raw_transaction.id
              resolved_category := categorization.predicted_category }

/-- `TransactionsService.normalize_and_categorize_raw_transactions`
(transactions_service.py lines 41-71).  With no pending raw transactions
it returns 0; otherwise it runs the per-transaction chain for every raw
transaction (`gather(..., return_exceptions=True)` collects outcomes in
order without raising), keeps only the successful outcomes (each
exception is logged and skipped), bulk-persists them and returns their
count. -/
def normalize_and_categorize_raw_transactions {E : Type}
    (normalizeOracle : RawTransactionRow → Except E RawTransactionRow)
    (categorizeOracle : RawTransactionRow → List String → Except E CategorizationResult)
    (categories : List String) (user_id : Nat) (db : PipelineDB) :
    Nat × PipelineDB :=
  let raw_transactions := get_user_raw_transactions db user_id
  if raw_transactions.isEmpty then
    (0, db)
  else
    let task_results := raw_transactions.map fun r =>
      normalize_and_categorize_single_transaction normalizeOracle categorizeOracle
        r categories
    let categorized_transactions := task_results.filterMap fun res =>
      match res with
      | .ok n => some n
      | .error _ => none
    (categorized_transactions.length,
      { db with normalized := db.normalized ++ categorized_transactions })

/-! ## Output Reconciler (`advisor/llm/llm_output_parser.py`)

Python strings are embedded as `List Char`.  `json.loads` belongs to the
Python standard library, not to this repository, so the parsing entry
points take the decoder as a parameter `decode`; a decode failure stands
for `json.JSONDecodeError`.  Pydantic model classes are embedded as field
tables (`PydModel`), and `expected_type(**data)` as `constructModel`:
keyword expansion of a non-mapping raises `TypeError`, and a missing
required field raises `ValidationError`.  Value-level coercion performed
by pydantic on supplied fields is not modelled (no claim depends on it). -/

/-- The left brace character, `\x7b`. -/
def lbrace : Char := '\x7b'

/-- The right brace character, `\x7d`. -/
def rbrace : Char := '\x7d'

/-- Whitespace in the sense of Python's `str.strip`. -/
def isPySpace (c : Char) : Bool :=
  c == ' ' || c == '\t' || c == '\n' || c == '\x0b' || c == '\x0c' || c == '\r'

/-- Python `str.strip()`. -/
def pstrip (s : List Char) : List Char :=
  ((s.dropWhile isPySpace).reverse.dropWhile isPySpace).reverse

/-- Python `str.startswith`. -/
def startswith (s pre : List Char) : Bool :=
  pre.isPrefixOf s

/-- Python `str.endswith`. -/
def endswith (s suf : List Char) : Bool :=
  suf.isSuffixOf s

/-- Python `str.find` restricted to a single character, `none` when the
character does not occur. -/
def findChar (s : List Char) (c : Char) : Option Nat :=
  match s with
  | [] => none
  | x :: xs => if x = c then some 0 else (findChar xs c).map (· + 1)

/-- Python `str.rfind` restricted to a single character: the last index of
the character, or `-1`. -/
def rfindChar (s : List Char) (c : Char) : Int :=
  match s with
  | [] => -1
  | x :: xs =>
      if 0 ≤ rfindChar xs c then rfindChar xs c + 1
      else if x = c then 0 else -1

/-- The JSON-boundary step of `_clean_json` (llm_output_parser.py lines
105-112): cut the span from the first `{`-or-`[` to the last
`}`-or-`]` when both exist. -/
def jsonSpan (text : List Char) : List Char :=
  let start := min
    (match findChar text lbrace with | some i => i | none => text.length)
    (match findChar text '[' with | some i => i | none => text.length)
  let stop := max (rfindChar text rbrace) (rfindChar text ']')
  if start < text.length ∧ 0 ≤ stop then
    (text.drop start).take (stop.toNat + 1 - start)
  else text

/-- `OutputParser._clean_json` (llm_output_parser.py lines 83-113): strip,
remove markdown fences, strip again, then cut the bracket-bounded JSON
span. -/
def _clean_json (text : List Char) : List Char :=
  let text := pstrip text
  let text :=
    if startswith text ("```json".toList) then text.drop 7
    else if startswith text ("```".toList) then text.drop 3
    else text
  let text := if endswith text ("```".toList) then text.take (text.length - 3) else text
  let text := pstrip text
  jsonSpan text

/-- The embedded Python value universe (what `json.loads` can return,
plus `None`). -/
inductive PyVal where
  | str (s : String)
  | int (i : Int)
  | float (q : ℚ)
  | bool (b : Bool)
  | null
  | list (items : List PyVal)
  | dict (entries : List (String × PyVal))

/-- Pydantic field annotations distinguished by `_create_minimal_instance`
(`annotation is str/float/int/bool/list`); `other` covers every other
annotation, for which that method adds no default. -/
inductive PyAnn where
  | str
  | float
  | int
  | bool
  | list
  | other
  deriving DecidableEq, Repr

/-- A pydantic-v2 field default: `PydanticUndefined` for required fields,
Python `None`, or a concrete value.  `field_info.default is not None`
holds exactly when the default is not `PyDefault.none`. -/
inductive PyDefault where
  | undefined
  | none
  | value (v : PyVal)

/-- The Python test `field_info.default is not None`. -/
def PyDefault.isNotNone : PyDefault → Bool
  | .none => false
  | _ => true

/-- The slice of pydantic's `FieldInfo` read by the reconciler. -/
structure PFieldInfo where
  ann : PyAnn
  default : PyDefault

/-- `FieldInfo.is_required()` in pydantic v2: the default is
`PydanticUndefined` (no repository model uses a `default_factory`). -/
def PFieldInfo.is_required (f : PFieldInfo) : Bool :=
  match f.default with
  | .undefined => true
  | _ => false

/-- A pydantic model class: its `model_fields` table. -/
structure PydModel where
  fields : List (String × PFieldInfo)

/-- A constructed model instance: its field values. -/
abbrev PydInstance : Type := List (String × PyVal)

/-- `expected_type(**data)`: keyword-expanding a non-mapping raises
`TypeError`; otherwise pydantic fills each declared field from the data,
falling back to its default, and raises `ValidationError` when a
required field is missing. -/
def constructModel (m : PydModel) (data : PyVal) : Except PyError PydInstance :=
  match data with
  | .dict entries =>
      m.fields.foldl
        (fun acc fv => do
          let l ← acc
          match entries.find? (fun p => p.1 == fv.1) with
          | some p => Except.ok (l ++ [(fv.1, p.2)])
          | none =>
              match fv.2.default with
              | .value v => Except.ok (l ++ [(fv.1, v)])
              | .none => Except.ok (l ++ [(fv.1, PyVal.null)])
              | .undefined => Except.error .validationError)
        (Except.ok [])
  | _ => .error .typeError

/-- `OutputParser._create_minimal_instance` (llm_output_parser.py lines
129-159).  For every field: `if field_info.default is not None: continue`
(in pydantic v2 a required field's default is `PydanticUndefined`, which
is not `None`), then `if not field_info.is_required(): continue`, then a
type-based default keyed on the annotation; finally
`expected_type(**default_values)`. -/
def _create_minimal_instance (expected_type : PydModel) :
    Except PyError PydInstance :=
  let default_values := expected_type.fields.foldl
    (fun acc fv =>
      if fv.2.default.isNotNone then acc
      else if ¬ fv.2.is_required then acc
      else
        match fv.2.ann with
        | .str => acc ++ [(fv.1, PyVal.str "unknown")]
        | .float => acc ++ [(fv.1, PyVal.float 0)]
        | .int => acc ++ [(fv.1, PyVal.int 0)]
        | .bool => acc ++ [(fv.1, PyVal.bool false)]
        | .list => acc ++ [(fv.1, PyVal.list [])]
        | .other => acc)
    []
  constructModel expected_type (.dict default_values)

/-- `OutputParser.parse` (llm_output_parser.py lines 21-43): clean, decode,
construct; `json.JSONDecodeError` and `ValidationError` are re-raised as
`ValueError`, while a `TypeError` from `expected_type(**data)` escapes
the `try` unchanged. -/
def parse (decode : List Char → Except PyError PyVal)
    (llm_output : List Char) (expected_type : PydModel) :
    Except PyError PydInstance :=
  let cleaned := _clean_json llm_output
  match decode cleaned with
  | .error _ => .error .valueError
  | .ok data =>
      match constructModel expected_type data with
      | .ok inst => .ok inst
      | .error .validationError => .error .valueError
      | .error e => .error e

/-- The `(?:[^{}]|(?:\{[^{}]*\}))*\}` tail of the extraction regex as a
deterministic scanner (on this pattern the greedy match never needs to
backtrack).  The flag records whether the scan is inside a nested
`\{[^{}]*\}` pair.  Returns the consumed characters (up to and including
the final closing brace) and the rest of the text. -/
def matchBraceItems : List Char → Bool → Option (List Char × List Char)
  | [], _ => none
  | c :: rest, false =>
      if c = rbrace then some ([c], rest)
      else if c = lbrace then
        (matchBraceItems rest true).map fun p => (c :: p.1, p.2)
      else
        (matchBraceItems rest false).map fun p => (c :: p.1, p.2)
  | c :: rest, true =>
      if c = rbrace then
        (matchBraceItems rest false).map fun p => (c :: p.1, p.2)
      else if c = lbrace then none
      else
        (matchBraceItems rest true).map fun p => (c :: p.1, p.2)

/-- `OutputParser._extract_json_anywhere` (llm_output_parser.py lines
115-127): the first match of `\{(?:[^{}]|(?:\{[^{}]*\}))*\}` anywhere in
the text (`re.findall(...)[0]`), scanning start positions left to
right. -/
def _extract_json_anywhere : List Char → Option (List Char)
  | [] => none
  | c :: rest =>
      if c = lbrace then
        match matchBraceItems rest false with
        | some p => some (c :: p.1)
        | none => _extract_json_anywhere rest
      else _extract_json_anywhere rest

/-- `OutputParser.parse_with_fallback` (llm_output_parser.py lines 45-81).
Tier 1 catches only `ValueError` from `parse`; tier 2 decodes the regex
extraction, catching `JSONDecodeError` and `ValidationError`; tier 3 is
the caller's default factory or `_create_minimal_instance`.  A
`TypeError` escapes from either of the first two tiers. -/
def parse_with_fallback (decode : List Char → Except PyError PyVal)
    (llm_output : List Char) (expected_type : PydModel)
    (default_factory : Option PydInstance) : Except PyError PydInstance :=
  match parse decode llm_output expected_type with
  | .ok inst => .ok inst
  | .error .valueError =>
      let strategy3 : Except PyError PydInstance :=
        match default_factory with
        | some inst => .ok inst
        | none => _create_minimal_instance expected_type
      (match _extract_json_anywhere llm_output with
       | none => strategy3
       | some extracted =>
           if extracted.isEmpty then strategy3
           else
             match decode extracted with
             | .error .jsonDecodeError => strategy3
             | .error e => .error e
             | .ok data =>
                 match constructModel expected_type data with
                 | .ok inst => .ok inst
                 | .error .validationError => strategy3
                 | .error .jsonDecodeError => strategy3
                 | .error e => .error e)
  | .error e => .error e

/-- `CategorizationResultModel` (data_models.py lines 60-82) as a pydantic
field table: three required fields, `predicted_category : str`,
`category_confidence : float`, `reasoning : str`. -/
def categorizationResultModel : PydModel :=
  { fields :=
      [("predicted_category", { ann := .str, default := .undefined }),
       ("category_confidence", { ann := .float, default := .undefined }),
       ("reasoning", { ann := .str, default := .undefined })] }

/-! ## Shared concrete fixtures for witnesses and counterexamples -/

/-- May 2025, as computed by the snapshot engine: `datetime(2025, 5, 1)`. -/
def periodStart : Date := ⟨2025, 5, 1⟩

/-- `datetime(2025, 6, 1) - timedelta(days=1)`. -/
def periodEnd : Date := ⟨2025, 5, 31⟩

/-- A category spend over its limit. -/
def foodSpend : CategorySpendModel := ⟨"Food", 120, "USD", 2⟩

/-- A category spend with no threshold. -/
def rentSpend : CategorySpendModel := ⟨"Rent", 50, "USD", 1⟩

/-- An active Food threshold of 100 covering all of 2025. -/
def foodThreshold : BudgetThreshold :=
  ⟨1, 1, "Food", .monthly, 100, "USD", true, ⟨2025, 1, 1⟩, some ⟨2025, 12, 31⟩⟩

/-- An unlinked credit of 100 inside May 2025. -/
def creditTransaction : NormalizedTransaction :=
  ⟨7, 1, .credit, 100, ⟨2025, 5, 10⟩, "USD", "Food", none⟩

/-- An unlinked debit of 100 inside May 2025. -/
def debitTransaction : NormalizedTransaction :=
  ⟨8, 1, .debit, 100, ⟨2025, 5, 11⟩, "USD", "Food", none⟩

/-- An unlinked credit of 200 inside May 2025. -/
def creditTransaction200 : NormalizedTransaction :=
  ⟨9, 1, .credit, 200, ⟨2025, 5, 12⟩, "USD", "Rent", none⟩

/-- An existing May 2025 snapshot row for user 1. -/
def existingSnapshot : FinancialPeriodSnapshot :=
  ⟨3, 1, .monthly, periodStart, periodEnd, 10, 20, -10, 0, [], [], 0, 0⟩

/-- A database holding only `existingSnapshot`. -/
def snapshotOnlyDB : DB := ⟨[existingSnapshot], [], [], 100⟩

/-! ## Claim theorems -/

/-- Claim C1: in the snapshot recomputation, a credit is to increase
`total_income` only and a debit `total_outcome` only.  The code is wrong
twice over.  First, the executed fold of finances_service.py lines
101-105 routes the amounts backwards: folding a single credit of 100
leaves the `missed_income` accumulator at 0 and puts 100 into
`missed_outcome`, and a single debit does the reverse — against the
spec and the enum's own comments (`DEBIT # Outcome`,
`CREDIT # Income`).  Second, the recomputation then raises at the
snapshot constructor (`TypeError`: the keywords `categories_spends` /
`budgets_statuses` are not ORM attributes), so no snapshot with any
totals is ever produced.  The fold state is
`(missed_outcome, missed_income, category map)`. -/
theorem c1_fold_routes_credit_to_outcome :
    ([creditTransaction].foldl foldUnlinkedTransaction (0, 0, [])).2.1 = 0 ∧
    ([creditTransaction].foldl foldUnlinkedTransaction (0, 0, [])).1 = 100 ∧
    ([debitTransaction].foldl foldUnlinkedTransaction (0, 0, [])).2.1 = 100 ∧
    ([debitTransaction].foldl foldUnlinkedTransaction (0, 0, [])).1 = 0 ∧
    _recalculate_finance_snapshot_for_period [] 1 periodStart periodEnd none
      [creditTransaction] 0 = .error .typeError ∧
    _recalculate_finance_snapshot_for_period [] 1 periodStart periodEnd none
      [debitTransaction] 0 = .error .typeError := by
  refine ⟨?_, ?_, ?_, ?_, rfl, rfl⟩ <;>
    simp [foldUnlinkedTransaction, creditTransaction, debitTransaction]

/-- Claim C2 (counterexample): the claim promises one `BudgetStatus` per
input spend for every non-empty spend list, with `is_overspent = false`
and absent limit fields when no threshold matches.  But with no loaded
threshold at all, budgets_service.py line 42-43 returns the empty list
even for a non-empty spend list, so no status is produced for the
spend. -/
theorem c2_counterexample :
    calculate_budget_statuses_per_category_spends [] 1 periodStart periodEnd
        [foodSpend] = [] ∧
    ¬ (calculate_budget_statuses_per_category_spends [] 1 periodStart periodEnd
        [foodSpend]).length = [foodSpend].length := by
  decide

/-! Helper lemmas about the embedded Python dict. -/

lemma dictInsert_of_not_mem {α : Type} (d : List (String × α)) (k : String) (v : α)
    (h : ∀ p ∈ d, p.1 ≠ k) : dictInsert d k v = d ++ [(k, v)] := by
  unfold dictInsert
  rw [if_neg]
  intro hcon
  have hk : k ∈ d.map Prod.fst := by simpa using hcon
  obtain ⟨p, hp, hpk⟩ := List.mem_map.mp hk
  exact h p hp hpk

lemma foldl_dictInsert_append {α β : Type} (key : α → String) (f : α → β) :
    ∀ (l : List α) (acc : List (String × β)),
      (∀ a ∈ l, ∀ p ∈ acc, p.1 ≠ key a) →
      (l.map key).Nodup →
      l.foldl (fun d a => dictInsert d (key a) (f a)) acc =
        acc ++ l.map fun a => (key a, f a)
  | [], acc, _, _ => by simp
  | a :: l, acc, hdis, hnd => by
      simp only [List.foldl_cons]
      rw [dictInsert_of_not_mem acc (key a) (f a)
        (fun p hp => hdis a (List.mem_cons_self a l) p hp)]
      rw [foldl_dictInsert_append key f l (acc ++ [(key a, f a)]) ?_ ?_]
      · simp
      · intro b hb p hp
        rcases List.mem_append.mp hp with hp | hp
        · exact hdis b (List.mem_cons_of_mem a hb) p hp
        · simp only [List.mem_singleton] at hp
          subst hp
          simp only [List.map_cons, List.nodup_cons] at hnd
          show key a ≠ key b
          intro hk
          exact hnd.1 (by rw [hk]; exact List.mem_map_of_mem key hb)
      · simp only [List.map_cons, List.nodup_cons] at hnd
        exact hnd.2

/-- Claim C2 (amended): provided at least one active covering threshold is
loaded and the input spends have pairwise-distinct categories, the
budget evaluation returns exactly one `BudgetStatus` per input spend, in
order; a spend whose category matches a loaded threshold gets
`limit_amount` populated, `remaining_amount = limit_amount − total_amount`
and `is_overspent = (remaining_amount ≤ 0)`; a spend with no matching
threshold gets absent limit and remaining amounts and
`is_overspent = false`.  (As stated the claim fails when no threshold
loads at all — see the counterexample.) -/
theorem c2_one_status_per_spend (thresholds : List BudgetThreshold)
    (user_id : Nat) (start_date end_date : Date)
    (category_spends : List CategorySpendModel)
    (hthr : loadBudgetThresholds thresholds user_id start_date end_date ≠ [])
    (hnd : (category_spends.map (·.category)).Nodup) :
    (calculate_budget_statuses_per_category_spends thresholds user_id
        start_date end_date category_spends).length = category_spends.length ∧
    calculate_budget_statuses_per_category_spends thresholds user_id
        start_date end_date category_spends =
      category_spends.map
        (statusForSpend
          ((loadBudgetThresholds thresholds user_id start_date end_date).foldl
            (fun d t => dictInsert d t.category_name t) [])) ∧
    (∀ (thmap : List (String × BudgetThreshold)) (spend : CategorySpendModel)
        (th : BudgetThreshold),
        dictGet thmap spend.category = some th →
        statusForSpend thmap spend =
          ⟨spend.category, some th.limit_amount, some spend.total_amount,
            some (th.limit_amount - spend.total_amount), spend.currency,
            decide (th.limit_amount - spend.total_amount ≤ 0)⟩) ∧
    (∀ (thmap : List (String × BudgetThreshold)) (spend : CategorySpendModel),
        dictGet thmap spend.category = none →
        statusForSpend thmap spend =
          ⟨spend.category, none, some spend.total_amount, none, spend.currency,
            false⟩) := by
  have hmain : calculate_budget_statuses_per_category_spends thresholds user_id
      start_date end_date category_spends =
      category_spends.map
        (statusForSpend
          ((loadBudgetThresholds thresholds user_id start_date end_date).foldl
            (fun d t => dictInsert d t.category_name t) [])) := by
    unfold calculate_budget_statuses_per_category_spends
    rw [if_neg (by simpa [List.isEmpty_iff] using hthr)]
    show (category_spends.foldl
        (fun d spend => dictInsert d spend.category
          (statusForSpend
            ((loadBudgetThresholds thresholds user_id start_date end_date).foldl
              (fun d t => dictInsert d t.category_name t) []) spend)) []).map
        Prod.snd =
      category_spends.map
        (statusForSpend
          ((loadBudgetThresholds thresholds user_id start_date end_date).foldl
            (fun d t => dictInsert d t.category_name t) []))
    rw [foldl_dictInsert_append (·.category)
      (statusForSpend
        ((loadBudgetThresholds thresholds user_id start_date end_date).foldl
          (fun d t => dictInsert d t.category_name t) []))
      category_spends [] (by simp) hnd]
    simp
  refine ⟨by rw [hmain]; simp, hmain, ?_, ?_⟩
  · intro thmap spend th hget
    simp [statusForSpend, hget]
  · intro thmap spend hget
    simp [statusForSpend, hget]

/-- Witness for C2: user 1, May 2025, the Food threshold loaded, spends
Food (over limit) and Rent (no threshold): two statuses come back. -/
theorem c2_witness :
    (calculate_budget_statuses_per_category_spends [foodThreshold] 1
        periodStart periodEnd [foodSpend, rentSpend]).length = 2 :=
  (c2_one_status_per_spend [foodThreshold] 1 periodStart periodEnd
    [foodSpend, rentSpend] (by decide) (by decide)).1

/-- Claim C3: the claim states the savings-rate invariant of every
snapshot written by the engine.  The engine never writes any snapshot:
the recomputation raises on every input — `AttributeError` on the update
path (line 94 reads `financial_snapshot.categories_spends`, not an ORM
attribute) and `TypeError` on the create path (the constructor keywords
`categories_spends` / `budgets_statuses` at lines 137-150 are not ORM
attributes) — before any write.  So no written snapshot carries the
claimed formula (or any other): the code cannot establish the intended
invariant.  (Additionally, the create-path local computation at lines
132-135 gates the formula on `missed_income − missed_outcome > 0`, a
further latent deviation were the constructor repaired.)  This theorem
evaluates the code: the recomputation always errors, with `TypeError` at
the concrete create-path input and `AttributeError` on every update-path
input. -/
theorem c3_engine_never_writes_snapshot :
    (∀ (thresholds : List BudgetThreshold) (user_id : Nat)
        (start_date end_date : Date)
        (financial_snapshot : Option FinancialPeriodSnapshot)
        (txns : List NormalizedTransaction) (now : Nat),
      ∃ e, _recalculate_finance_snapshot_for_period thresholds user_id
        start_date end_date financial_snapshot txns now = .error e) ∧
    _recalculate_finance_snapshot_for_period [] 1 periodStart periodEnd none
      [debitTransaction, creditTransaction200] 0 = .error .typeError ∧
    (∀ (thresholds : List BudgetThreshold) (user_id : Nat)
        (start_date end_date : Date) (snap : FinancialPeriodSnapshot)
        (txns : List NormalizedTransaction) (now : Nat),
      _recalculate_finance_snapshot_for_period thresholds user_id start_date
        end_date (some snap) txns now = .error .attributeError) := by
  refine ⟨?_, rfl, ?_⟩
  · intro thresholds user_id start_date end_date financial_snapshot txns now
    cases financial_snapshot with
    | none => exact ⟨.typeError, rfl⟩
    | some s => exact ⟨.attributeError, rfl⟩
  · intro thresholds user_id start_date end_date snap txns now
    rfl

/-- Every month length is at least 28 days. -/
lemma twentyeight_le_daysInMonth (y m : Nat) : 28 ≤ daysInMonth y m := by
  unfold daysInMonth
  split_ifs <;> omega

/-- Claim C4: for month 12 the snapshot operation computes
`datetime(year, 13, 1)` for the period end and raises `ValueError`
before touching any state (the embedded call fails with no resulting
state); the period bounds are computable exactly for months 1–11; and
the API route reaches this code with the real current month, so a
December call propagates the `ValueError`. -/
theorem c4_december_value_error (user_id y now : Nat) (db : DB)
    (hy1 : 1 ≤ y) (hy2 : y ≤ 9999) :
    get_up_to_date_financial_snapshot_current_month user_id 12 y now db =
      .error .valueError ∧
    (∀ today : Date, today.year = y → today.month = 12 →
      get_current_month_financial_state today now db = .error .valueError) ∧
    (∀ m, 1 ≤ m → m ≤ 11 →
      mkDatetime y m 1 = .ok ⟨y, m, 1⟩ ∧ mkDatetime y (m + 1) 1 = .ok ⟨y, m + 1, 1⟩) := by
  have h1 : mkDatetime y 12 1 = .ok ⟨y, 12, 1⟩ := by
    unfold mkDatetime
    rw [if_pos]
    exact ⟨hy1, hy2, by norm_num, by norm_num, le_refl 1,
      le_trans (by norm_num) (twentyeight_le_daysInMonth y 12)⟩
  have h2 : mkDatetime y 13 1 = .error .valueError := by
    unfold mkDatetime
    rw [if_neg]
    rintro ⟨-, -, -, h13, -⟩
    omega
  have hmain : ∀ u, get_up_to_date_financial_snapshot_current_month u 12 y now db =
      .error .valueError := by
    intro u
    simp [get_up_to_date_financial_snapshot_current_month, h1, h2]
  refine ⟨hmain user_id, ?_, ?_⟩
  · intro today hty htm
    unfold get_current_month_financial_state
    rw [htm, hty]
    exact hmain 1
  · intro m hm1 hm2
    constructor
    · unfold mkDatetime
      rw [if_pos]
      exact ⟨hy1, hy2, hm1, by omega, le_refl 1,
        le_trans (by norm_num) (twentyeight_le_daysInMonth y m)⟩
    · unfold mkDatetime
      rw [if_pos]
      exact ⟨hy1, hy2, by omega, by omega, le_refl 1,
        le_trans (by norm_num) (twentyeight_le_daysInMonth y (m + 1))⟩

/-- Witness for C4: a December 2025 call on an empty database raises. -/
theorem c4_witness :
    get_up_to_date_financial_snapshot_current_month 1 12 2025 0 ⟨[], [], [], 0⟩ =
      .error .valueError :=
  (c4_december_value_error 1 2025 0 ⟨[], [], [], 0⟩ (by norm_num) (by norm_num)).1

/-- Claim C6: the claim says that with an existing snapshot and zero
unlinked transactions the call returns the existing snapshot content
unchanged with no recomputation and no write.  The fast path of
finances_service.py lines 62-63 is real — no recomputation, no write —
but it never returns the content: `map_db_snapshot_to_model` raises
pydantic `ValidationError`, because `to_dict()` supplies the column keys
`category_spend` / `budget_status` while `FinancialPeriodSnapshotModel`
requires `categories_spends` / `budgets_statuses`.  This theorem
evaluates the code on the fast path: under the fast-path conditions the
call, at any clock value, surfaces that `ValidationError` (without
touching the database), and the mapping fails on every snapshot row. -/
theorem c6_fast_path_raises (user_id m y now now2 : Nat) (db : DB)
    (s f : Date) (snap : FinancialPeriodSnapshot)
    (hs : mkDatetime y m 1 = .ok s)
    (hf : mkDatetime y (m + 1) 1 = .ok f)
    (hfind : findSnapshotRows db user_id s f.prevDay = [snap])
    (hunlinked : unlinkedTransactionRows db user_id s f.prevDay = []) :
    get_up_to_date_financial_snapshot_current_month user_id m y now db =
      .error .validationError ∧
    get_up_to_date_financial_snapshot_current_month user_id m y now2 db =
      .error .validationError ∧
    (∀ row : FinancialPeriodSnapshot,
      map_db_snapshot_to_model row = .error .validationError) := by
  have hmap : ∀ row : FinancialPeriodSnapshot,
      map_db_snapshot_to_model row = .error .validationError := fun _ => rfl
  refine ⟨?_, ?_, hmap⟩ <;>
    simp [get_up_to_date_financial_snapshot_current_month, hs, hf, hfind,
      hunlinked, scalarOneOrNone, hmap]

/-- Witness for C6: with the May 2025 snapshot stored and no unlinked
transactions, the call raises the mapping `ValidationError`. -/
theorem c6_witness :
    get_up_to_date_financial_snapshot_current_month 1 5 2025 77 snapshotOnlyDB =
      .error .validationError :=
  (c6_fast_path_raises 1 5 2025 77 78 snapshotOnlyDB ⟨2025, 5, 1⟩
    ⟨2025, 6, 1⟩ existingSnapshot rfl rfl rfl rfl).1

/-! Helper lemmas for the batch concurrency model. -/

lemma countP_set (p : TaskPhase → Bool) :
    ∀ (l : List TaskPhase) (i : Nat) (a b : TaskPhase), l[i]? = some a →
      (l.set i b).countP p + (if p a then 1 else 0) =
        l.countP p + (if p b then 1 else 0)
  | [], i, a, b, h => by simp at h
  | x :: xs, 0, a, b, h => by
      simp only [List.getElem?_cons_zero, Option.some.injEq] at h
      subst h
      simp only [List.set_cons_zero, List.countP_cons]
      omega
  | x :: xs, i + 1, a, b, h => by
      simp only [List.getElem?_cons_succ] at h
      simp only [List.set_cons_succ, List.countP_cons]
      have := countP_set p xs i a b h
      omega

lemma batch_step_preserves (n : Nat) (s s' : BatchExecState)
    (hstep : BatchStep s s') (h : runningCount s + s.sem = n) :
    runningCount s' + s'.sem = n := by
  cases hstep with
  | acquire i hsem hi =>
      have hc := countP_set (· == TaskPhase.running) s.tasks i .waiting .running hi
      unfold runningCount at h ⊢
      dsimp only
      simp at hc
      omega
  | release i hi =>
      have hc := countP_set (· == TaskPhase.running) s.tasks i .running .finished hi
      unfold runningCount at h ⊢
      dsimp only
      simp at hc
      omega

lemma batch_running_plus_sem (n k : Nat) :
    ∀ s : BatchExecState,
      Relation.ReflTransGen BatchStep (initBatchState n k) s →
      runningCount s + s.sem = n := by
  intro s h
  induction h with
  | refl =>
      have h0 : (List.replicate k TaskPhase.waiting).countP
          (· == TaskPhase.running) = 0 := by
        rw [List.countP_eq_zero]
        intro a ha
        rw [List.eq_of_mem_replicate ha]
        decide
      unfold initBatchState runningCount
      simp [h0]
  | tail _ hstep ih =>
      exact batch_step_preserves n _ _ hstep ih

lemma batch_ok_spec {Req E T : Type} (invoke : Req → Except E T) :
    ∀ (rs : List Req) (out : List T),
      batch_invoke_structured invoke rs = .ok out →
      out.length = rs.length ∧
      ∀ (i : Nat) (hi : i < rs.length) (ho : i < out.length),
        invoke (rs.get ⟨i, hi⟩) = .ok (out.get ⟨i, ho⟩)
  | [], out, h => by
      simp only [batch_invoke_structured, Except.ok.injEq] at h
      subst h
      exact ⟨rfl, fun i hi => by simp at hi⟩
  | r :: rs, out, h => by
      unfold batch_invoke_structured at h
      cases hr : invoke r with
      | error e => rw [hr] at h; cases h
      | ok t =>
          rw [hr] at h
          cases hb : batch_invoke_structured invoke rs with
          | error e => rw [hb] at h; cases h
          | ok ts =>
              rw [hb] at h
              simp only [Except.ok.injEq] at h
              subst h
              obtain ⟨hlen, hidx⟩ := batch_ok_spec invoke rs ts hb
              refine ⟨by simp [hlen], ?_⟩
              intro i hi ho
              cases i with
              | zero => simpa using hr
              | succ j =>
                  exact hidx j (by simpa using hi) (by simpa using ho)

lemma batch_error_of_mem {Req E T : Type} (invoke : Req → Except E T) :
    ∀ (rs : List Req) (r : Req) (e : E), r ∈ rs → invoke r = .error e →
      ∃ e', batch_invoke_structured invoke rs = .error e'
  | [], r, e, hmem, _ => by cases hmem
  | r' :: rs, r, e, hmem, herr => by
      unfold batch_invoke_structured
      cases hr' : invoke r' with
      | error e'' => exact ⟨e'', rfl⟩
      | ok t =>
          rcases List.mem_cons.mp hmem with rfl | hmem'
          · rw [hr'] at herr; cases herr
          · obtain ⟨e', hb⟩ := batch_error_of_mem invoke rs r e hmem' herr
            rw [hb]
            exact ⟨e', rfl⟩

/-- Claim C7: `batch_invoke_structured` returns its results in request
order — on success the `i`-th result is the outcome of the `i`-th
request — a single failing request propagates as an error aborting the
whole batch, and in the semaphore semantics of `_process_one` at most
`max_concurrent` invocations are ever in flight from the initial
state. -/
theorem c7_batch_order_bound_abort :
    (∀ (Req E T : Type) (invoke : Req → Except E T) (rs : List Req) (out : List T),
        batch_invoke_structured invoke rs = .ok out →
        out.length = rs.length ∧
        ∀ (i : Nat) (hi : i < rs.length) (ho : i < out.length),
          invoke (rs.get ⟨i, hi⟩) = .ok (out.get ⟨i, ho⟩)) ∧
    (∀ (Req E T : Type) (invoke : Req → Except E T) (rs : List Req) (r : Req) (e : E),
        r ∈ rs → invoke r = .error e →
        ∃ e', batch_invoke_structured invoke rs = .error e') ∧
    (∀ (max_concurrent request_count : Nat) (s : BatchExecState),
        Relation.ReflTransGen BatchStep (initBatchState max_concurrent request_count) s →
        runningCount s ≤ max_concurrent) := by
  refine ⟨fun Req E T => batch_ok_spec, fun Req E T => batch_error_of_mem, ?_⟩
  intro n k s h
  have := batch_running_plus_sem n k s h
  omega

/-- Witness for C7: a two-request batch with a pure oracle succeeds with
results in order, and no reachable state of a 5-task run under a
semaphore of 3 exceeds 3 running tasks (here: the initial state). -/
theorem c7_witness :
    (([11, 21] : List Nat).length = ([10, 20] : List Nat).length) ∧
    runningCount (initBatchState 3 5) ≤ 3 :=
  ⟨(c7_batch_order_bound_abort.1 Nat Unit Nat (fun r => .ok (r + 1))
      [10, 20] [11, 21] rfl).1,
   c7_batch_order_bound_abort.2.2 3 5 (initBatchState 3 5) .refl⟩

/-! Helper lemmas for the categorization pipeline. -/

lemma except_match_toOption {E α : Type} (res : Except E α) :
    (match res with | .ok n => some n | .error _ => none) = res.toOption := by
  cases res <;> rfl

lemma length_filterMap_eq_countP {α β : Type} (f : α → Option β) :
    ∀ l : List α, (l.filterMap f).length = l.countP fun a => (f a).isSome
  | [] => rfl
  | a :: l => by
      cases hf : f a <;>
        simp [List.filterMap_cons, hf, List.countP_cons,
          length_filterMap_eq_countP f l]

lemma single_transaction_ok_links {E : Type}
    (normalizeOracle : RawTransactionRow → Except E RawTransactionRow)
    (categorizeOracle : RawTransactionRow → List String → Except E CategorizationResult)
    (r : RawTransactionRow) (categories : List String)
    (n : PipelineNormalizedRow)
    (h : normalize_and_categorize_single_transaction normalizeOracle
      categorizeOracle r categories = .ok n) :
    n.raw_transaction_id = some r.id := by
  unfold normalize_and_categorize_single_transaction at h
  cases hno : normalizeOracle r with
  | error e => rw [hno] at h; cases h
  | ok nr =>
      rw [hno] at h
      dsimp only at h
      cases hco : categorizeOracle nr categories with
      | error e => rw [hco] at h; cases h
      | ok c =>
          rw [hco] at h
          simp only [Except.ok.injEq] at h
          subst h
          rfl

/-- Claim C8: the pipeline returns the number of successfully processed
transactions — 0 when nothing is pending, with the database untouched —
a per-transaction failure is skipped (the persisted rows are exactly the
old rows plus the successful outcomes, in order), a failing raw
transaction contributes no persisted row, and the pipeline itself
returns normally whatever the per-transaction outcomes are (the embedded
function is total). -/
theorem c8_pipeline_skips_failures {E : Type}
    (normalizeOracle : RawTransactionRow → Except E RawTransactionRow)
    (categorizeOracle : RawTransactionRow → List String → Except E CategorizationResult)
    (categories : List String) (user_id : Nat) (db : PipelineDB)
    (hids : (db.raw_transactions.map (·.id)).Nodup) :
    (get_user_raw_transactions db user_id = [] →
      normalize_and_categorize_raw_transactions normalizeOracle categorizeOracle
        categories user_id db = (0, db)) ∧
    (normalize_and_categorize_raw_transactions normalizeOracle categorizeOracle
        categories user_id db).1 =
      (get_user_raw_transactions db user_id).countP
        (fun r => (normalize_and_categorize_single_transaction normalizeOracle
          categorizeOracle r categories).toOption.isSome) ∧
    (normalize_and_categorize_raw_transactions normalizeOracle categorizeOracle
        categories user_id db).2.normalized =
      db.normalized ++
        (get_user_raw_transactions db user_id).filterMap
          (fun r => (normalize_and_categorize_single_transaction normalizeOracle
            categorizeOracle r categories).toOption) ∧
    (∀ r ∈ get_user_raw_transactions db user_id, ∀ e : E,
      normalize_and_categorize_single_transaction normalizeOracle
        categorizeOracle r categories = .error e →
      ∀ n ∈ (normalize_and_categorize_raw_transactions normalizeOracle
        categorizeOracle categories user_id db).2.normalized,
        n ∉ db.normalized → n.raw_transaction_id ≠ some r.id) := by
  have hpersist : (normalize_and_categorize_raw_transactions normalizeOracle
      categorizeOracle categories user_id db).2.normalized =
      db.normalized ++
        (get_user_raw_transactions db user_id).filterMap
          (fun r => (normalize_and_categorize_single_transaction normalizeOracle
            categorizeOracle r categories).toOption) := by
    unfold normalize_and_categorize_raw_transactions
    by_cases hempty : (get_user_raw_transactions db user_id).isEmpty
    · rw [if_pos hempty]
      rw [List.isEmpty_iff] at hempty
      simp [hempty]
    · rw [if_neg hempty]
      simp [List.filterMap_map, Function.comp_def, except_match_toOption]
      congr 1
      funext x
      cases normalize_and_categorize_single_transaction normalizeOracle
        categorizeOracle x categories <;> rfl
  have hcount : (normalize_and_categorize_raw_transactions normalizeOracle
      categorizeOracle categories user_id db).1 =
      (get_user_raw_transactions db user_id).countP
        (fun r => (normalize_and_categorize_single_transaction normalizeOracle
          categorizeOracle r categories).toOption.isSome) := by
    unfold normalize_and_categorize_raw_transactions
    by_cases hempty : (get_user_raw_transactions db user_id).isEmpty
    · rw [if_pos hempty]
      rw [List.isEmpty_iff] at hempty
      simp [hempty]
    · rw [if_neg hempty]
      simp [List.filterMap_map, Function.comp_def, except_match_toOption,
        length_filterMap_eq_countP]
      congr 1
      funext x
      cases normalize_and_categorize_single_transaction normalizeOracle
        categorizeOracle x categories <;> rfl
  refine ⟨?_, hcount, hpersist, ?_⟩
  · intro h
    unfold normalize_and_categorize_raw_transactions
    rw [if_pos (by rw [List.isEmpty_iff]; exact h)]
  · intro r hr e herr n hn hnotold hlink
    rw [hpersist] at hn
    rcases List.mem_append.mp hn with hold | hnew
    · exact hnotold hold
    · obtain ⟨r', hr', hok⟩ := List.mem_filterMap.mp hnew
      have hok' : normalize_and_categorize_single_transaction normalizeOracle
          categorizeOracle r' categories = .ok n := by
        cases hcase : normalize_and_categorize_single_transaction normalizeOracle
            categorizeOracle r' categories with
        | error e' => rw [hcase] at hok; cases hok
        | ok n' =>
            rw [hcase] at hok
            simp only [Except.toOption, Option.some.injEq] at hok
            rw [hok]
      have hlink' := single_transaction_ok_links normalizeOracle categorizeOracle
        r' categories n hok'
      have hid : r'.id = r.id := by
        rw [hlink'] at hlink
        simpa using hlink
      have hr'mem : r' ∈ db.raw_transactions := by
        unfold get_user_raw_transactions at hr'
        exact (List.mem_filter.mp hr').1
      have hrmem : r ∈ db.raw_transactions := by
        unfold get_user_raw_transactions at hr
        exact (List.mem_filter.mp hr).1
      have : r' = r := List.inj_on_of_nodup_map hids hr'mem hrmem hid
      rw [this, herr] at hok'
      cases hok'

/-- Witness for C8: one pending raw transaction whose normalization call
fails is skipped — the pipeline returns normally with count 0. -/
theorem c8_witness :
    (normalize_and_categorize_raw_transactions
        (fun _ => .error ()) (fun _ _ => .error ()) [] 1
        ⟨[⟨1, 1⟩], []⟩).1 = 0 :=
  (c8_pipeline_skips_failures (fun _ => .error ()) (fun _ _ => .error ()) [] 1
    ⟨[⟨1, 1⟩], []⟩ (by decide)).2.1.trans rfl

/-! Helper lemmas for the period-boundary analysis. -/

lemma mkDatetime_ok_inv (y m d : Nat) (dd : Date)
    (h : mkDatetime y m d = .ok dd) :
    dd = ⟨y, m, d⟩ ∧ 1 ≤ y ∧ y ≤ 9999 ∧ 1 ≤ m ∧ m ≤ 12 ∧ 1 ≤ d ∧
      d ≤ daysInMonth y m := by
  unfold mkDatetime at h
  split_ifs at h with hcond
  refine ⟨?_, hcond⟩
  cases h
  rfl

lemma prevDay_first_of_next (y m : Nat) (hm : 1 ≤ m) :
    Date.prevDay ⟨y, m + 1, 1⟩ = monthEndDate y m := by
  unfold Date.prevDay monthEndDate
  dsimp only
  rw [if_neg (by omega), if_pos (by omega)]
  simp only [Nat.add_sub_cancel]

lemma month_end_filter_false (y m y' m' : Nat) :
    (Date.ble ⟨y', m', 1⟩ (monthEndDate y m) &&
      Date.blt (monthEndDate y m) (monthEndDate y' m')) = false := by
  apply Bool.eq_false_iff.mpr
  intro h
  rw [Bool.and_eq_true] at h
  obtain ⟨h1, h2⟩ := h
  have hd : 28 ≤ daysInMonth y m := twentyeight_le_daysInMonth y m
  have hd' : 28 ≤ daysInMonth y' m' := twentyeight_le_daysInMonth y' m'
  simp only [Date.ble, Date.blt, monthEndDate, Bool.or_eq_true, Bool.and_eq_true,
    decide_eq_true_eq, beq_iff_eq, Date.mk.injEq] at h1 h2
  rcases h2 with hb | ⟨hby, hb⟩
  · rcases h1 with (h1a | ⟨h1b, h1c | ⟨h1c, -⟩⟩) | ⟨h1b, -, -⟩ <;> omega
  · rcases hb with hbm | ⟨hbm, hbd⟩
    · rcases h1 with (h1a | ⟨h1b, h1c | ⟨h1c, -⟩⟩) | ⟨h1b, h1c, -⟩ <;> omega
    · subst hby
      subst hbm
      omega

lemma month_end_unlinked_query (db : DB) (u y' m' : Nat)
    (t : NormalizedTransaction) (y m : Nat)
    (hdate : t.date = monthEndDate y m) (hm' : 1 ≤ m') :
    t ∉ unlinkedTransactionRows db u ⟨y', m', 1⟩ (Date.prevDay ⟨y', m' + 1, 1⟩) := by
  intro hmem
  unfold unlinkedTransactionRows at hmem
  rw [List.mem_filter] at hmem
  obtain ⟨-, hcond⟩ := hmem
  rw [prevDay_first_of_next y' m' hm', hdate] at hcond
  simp only [Bool.and_eq_true] at hcond
  obtain ⟨⟨⟨-, hble⟩, hblt⟩, -⟩ := hcond
  have hfalse := month_end_filter_false y m y' m'
  rw [hble, hblt] at hfalse
  simp at hfalse

lemma not_in_folded_ids (db : DB) (u : Nat) (s e : Date)
    (t : NormalizedTransaction) (hmem : t ∈ db.transactions)
    (hids : (db.transactions.map (·.id)).Nodup)
    (hnot : t ∉ unlinkedTransactionRows db u s e) :
    ((unlinkedTransactionRows db u s e).map (·.id)).contains t.id = false := by
  by_contra h
  rw [Bool.not_eq_false] at h
  have hmem' : t.id ∈ (unlinkedTransactionRows db u s e).map (·.id) := by
    simpa using h
  obtain ⟨x, hx, hxid⟩ := List.mem_map.mp hmem'
  have hxdb : x ∈ db.transactions := by
    unfold unlinkedTransactionRows at hx
    exact (List.mem_filter.mp hx).1
  have hxt : x = t := List.inj_on_of_nodup_map hids hxdb hmem hxid
  exact hnot (hxt ▸ hx)

/-- Claim C10: a normalized transaction dated exactly on a period's end
date (the last calendar day of its month) is never selected by the
unlinked-transaction query — the query filters `date < end_date` with
`end_date` equal to the last day of the requested month — so it is never
folded into a snapshot, and the link-assignment loop of any call (which
iterates exactly over the query-selected rows, for any valid period,
user and snapshot id) leaves that transaction row, including its
snapshot link, unchanged. -/
theorem c10_month_end_never_counted (db : DB) (user_id m' y' y m : Nat)
    (t : NormalizedTransaction) (hdate : t.date = monthEndDate y m)
    (htmem : t ∈ db.transactions)
    (hids : (db.transactions.map (·.id)).Nodup)
    (s f : Date)
    (hs : mkDatetime y' m' 1 = .ok s)
    (hf : mkDatetime y' (m' + 1) 1 = .ok f) :
    t ∉ unlinkedTransactionRows db user_id s f.prevDay ∧
    (∀ (snapshot_id : Nat) (i : Nat) (hi : i < db.transactions.length),
      db.transactions.get ⟨i, hi⟩ = t →
      ∃ hi' : i < (linkTransactionsToSnapshot db.transactions
          (unlinkedTransactionRows db user_id s f.prevDay)
          snapshot_id).length,
        (linkTransactionsToSnapshot db.transactions
          (unlinkedTransactionRows db user_id s f.prevDay)
          snapshot_id).get ⟨i, hi'⟩ = t) := by
  obtain ⟨hseq, -, -, hm1, -, -⟩ := mkDatetime_ok_inv _ _ _ _ hs
  obtain ⟨hfeq, -⟩ := mkDatetime_ok_inv _ _ _ _ hf
  subst hseq
  subst hfeq
  have hnot := month_end_unlinked_query db user_id y' m' t y m hdate hm1
  refine ⟨hnot, ?_⟩
  intro snapshot_id i hi hti
  have hfold := not_in_folded_ids db user_id ⟨y', m', 1⟩
    (Date.prevDay ⟨y', m' + 1, 1⟩) t htmem hids hnot
  refine ⟨by simpa [linkTransactionsToSnapshot] using hi, ?_⟩
  simp only [linkTransactionsToSnapshot, List.get_eq_getElem, List.getElem_map]
  simp only [List.get_eq_getElem] at hti
  rw [hti, hfold]
  simp

/-- Witness for C10: a transaction dated 2025-05-31 (the May period end)
is not selected by the May 2025 unlinked-transaction query. -/
theorem c10_witness :
    (⟨7, 1, .credit, 100, ⟨2025, 5, 31⟩, "USD", "Food", none⟩ :
        NormalizedTransaction) ∉
      unlinkedTransactionRows
        ⟨[], [⟨7, 1, .credit, 100, ⟨2025, 5, 31⟩, "USD", "Food", none⟩], [], 0⟩
        1 ⟨2025, 5, 1⟩ (Date.prevDay ⟨2025, 6, 1⟩) :=
  (c10_month_end_never_counted
    ⟨[], [⟨7, 1, .credit, 100, ⟨2025, 5, 31⟩, "USD", "Food", none⟩], [], 0⟩
    1 5 2025 2025 5 ⟨7, 1, .credit, 100, ⟨2025, 5, 31⟩, "USD", "Food", none⟩
    rfl (by simp) (by simp) ⟨2025, 5, 1⟩ ⟨2025, 6, 1⟩ rfl rfl).1

/-- Claim C5: the claim says `parse_with_fallback` returns a value for
every input string and every response type, building a minimal instance
with type-appropriate defaults when both parse tiers fail and no default
factory is supplied.  The code violates this:
`_create_minimal_instance` first checks `field_info.default is not None`,
but in pydantic v2 a required field's default is `PydanticUndefined`,
which is not `None`, so every required field is skipped, no default is
ever produced, and `expected_type(**{})` raises `ValidationError` — for
example on input `"not json"` with `CategorizationResultModel` (three
required fields).  This theorem evaluates the embedded code at that
failing input: for any JSON decoder that rejects `"not json"`, the call
surfaces a `ValidationError` instead of returning an instance. -/
theorem c5_fallback_raises (decode : List Char → Except PyError PyVal)
    (hdecode : decode ("not json".toList) = .error .jsonDecodeError) :
    parse_with_fallback decode ("not json".toList) categorizationResultModel
      none = .error .validationError := by
  have hclean : _clean_json ("not json".toList) = "not json".toList := by decide
  have hex : _extract_json_anywhere ("not json".toList) = none := by decide
  simp only [parse_with_fallback, parse, hclean, hdecode, hex]
  rfl

/-- Witness for C5: the always-failing decoder realizes the hypothesis. -/
theorem c5_witness :
    parse_with_fallback (fun _ => .error .jsonDecodeError)
      ("not json".toList) categorizationResultModel none =
      .error .validationError :=
  c5_fallback_raises (fun _ => .error .jsonDecodeError) rfl

/-! Helper lemmas about the embedded Python string primitives. -/

lemma pstrip_eq_self (s : List Char) (c d : Char)
    (hh : s.head? = some c) (hcs : isPySpace c = false)
    (hl : s.getLast? = some d) (hds : isPySpace d = false) :
    pstrip s = s := by
  unfold pstrip
  have h1 : s.dropWhile isPySpace = s := by
    cases s with
    | nil => rfl
    | cons x xs =>
        simp only [List.head?_cons, Option.some.injEq] at hh
        subst hh
        rw [List.dropWhile_cons, if_neg (by simp [hcs])]
  rw [h1]
  have hxd : s.reverse.head? = some d := by rw [List.head?_reverse, hl]
  have h2 : s.reverse.dropWhile isPySpace = s.reverse := by
    cases hrev : s.reverse with
    | nil => rfl
    | cons x xs =>
        rw [hrev] at hxd
        simp only [List.head?_cons, Option.some.injEq] at hxd
        subst hxd
        rw [List.dropWhile_cons, if_neg (by simp [hds])]
  rw [h2, List.reverse_reverse]

lemma startswith_false_of_head_ne (s pre : List Char) (c d : Char)
    (hs : s.head? = some c) (hp : pre.head? = some d) (hne : d ≠ c) :
    startswith s pre = false := by
  unfold startswith
  cases s with
  | nil => simp at hs
  | cons x xs =>
      cases pre with
      | nil => simp at hp
      | cons y ys =>
          simp only [List.head?_cons, Option.some.injEq] at hs hp
          subst hs
          subst hp
          simp [List.isPrefixOf, hne]

lemma endswith_false_of_last_ne (s suf : List Char) (c d : Char)
    (hs : s.getLast? = some c) (hp : suf.getLast? = some d) (hne : d ≠ c) :
    endswith s suf = false := by
  unfold endswith
  show List.isPrefixOf suf.reverse s.reverse = false
  exact startswith_false_of_head_ne s.reverse suf.reverse c d
    (by rw [List.head?_reverse, hs]) (by rw [List.head?_reverse, hp]) hne

lemma findChar_cons (x : Char) (xs : List Char) (c : Char) :
    findChar (x :: xs) c =
      if x = c then some 0 else (findChar xs c).map (· + 1) := rfl

lemma rfindChar_cons (x : Char) (xs : List Char) (c : Char) :
    rfindChar (x :: xs) c =
      if 0 ≤ rfindChar xs c then rfindChar xs c + 1
      else if x = c then 0 else -1 := rfl

lemma isPrefixOf_append_self : ∀ (l t : List Char), l.isPrefixOf (l ++ t) = true
  | [], _ => by simp [List.isPrefixOf]
  | x :: xs, t => by simp [List.isPrefixOf, isPrefixOf_append_self xs t]

lemma endswith_append_self (a suf : List Char) : endswith (a ++ suf) suf = true := by
  unfold endswith
  show List.isPrefixOf suf.reverse (a ++ suf).reverse = true
  rw [List.reverse_append]
  exact isPrefixOf_append_self suf.reverse a.reverse

lemma findChar_head (s : List Char) (c : Char) (h : s.head? = some c) :
    findChar s c = some 0 := by
  cases s with
  | nil => simp at h
  | cons x xs =>
      simp only [List.head?_cons, Option.some.injEq] at h
      subst h
      simp [findChar]

lemma findChar_append_of_not_mem (c : Char) :
    ∀ (a b : List Char), c ∉ a →
      findChar (a ++ b) c = (findChar b c).map (· + a.length)
  | [], b, _ => by cases h : findChar b c <;> simp [h]
  | x :: xs, b, hmem => by
      have hx : x ≠ c := by
        intro h
        exact hmem (by rw [h]; exact List.mem_cons_self _ _)
      have hxs : c ∉ xs := fun h => hmem (List.mem_cons_of_mem _ h)
      rw [List.cons_append, findChar_cons, if_neg hx,
        findChar_append_of_not_mem c xs b hxs]
      cases h : findChar b c <;> simp [h, Nat.add_assoc]

lemma rfindChar_lt_length (c : Char) :
    ∀ s : List Char, rfindChar s c < (s.length : Int)
  | [] => by simp [rfindChar]
  | x :: xs => by
      have ih := rfindChar_lt_length c xs
      rw [rfindChar_cons]
      simp only [List.length_cons]
      split_ifs <;> push_cast <;> omega

lemma rfindChar_append_right (c : Char) :
    ∀ (a b : List Char), 0 ≤ rfindChar b c →
      rfindChar (a ++ b) c = a.length + rfindChar b c
  | [], b, h => by simp
  | x :: xs, b, h => by
      have ih := rfindChar_append_right c xs b h
      rw [List.cons_append, rfindChar_cons, ih]
      rw [if_pos (by omega)]
      simp only [List.length_cons]
      push_cast
      omega

lemma rfindChar_getLast (c : Char) :
    ∀ s : List Char, s.getLast? = some c →
      rfindChar s c = (s.length : Int) - 1
  | [], h => by simp at h
  | [x], h => by
      simp only [List.getLast?_singleton, Option.some.injEq] at h
      subst h
      simp [rfindChar]
  | x :: y :: xs, h => by
      rw [List.getLast?_cons_cons] at h
      have ih := rfindChar_getLast c (y :: xs) h
      have hlen : 1 ≤ (y :: xs).length := by simp
      rw [rfindChar_cons, ih]
      rw [if_pos (by omega)]
      simp only [List.length_cons]
      push_cast
      omega

lemma head_not_nil {s : List Char} {c : Char} (h : s.head? = some c) : s ≠ [] := by
  intro hnil
  rw [hnil] at h
  simp at h

lemma jsonSpan_append (pre j : List Char)
    (hpre : ∀ c ∈ pre, c ≠ lbrace ∧ c ≠ rbrace ∧ c ≠ '[' ∧ c ≠ ']')
    (hh : j.head? = some lbrace) (hl : j.getLast? = some rbrace) :
    jsonSpan (pre ++ j) = j := by
  have hne : j ≠ [] := head_not_nil hh
  have hjlen : 1 ≤ j.length := List.length_pos.mpr hne
  have hlb : lbrace ∉ pre := fun hmem => (hpre _ hmem).1 rfl
  have hosb : '[' ∉ pre := fun hmem => (hpre _ hmem).2.2.1 rfl
  have hlen : (pre ++ j).length = pre.length + j.length := List.length_append _ _
  have hf1 : findChar (pre ++ j) lbrace = some (0 + pre.length) := by
    rw [findChar_append_of_not_mem lbrace pre j hlb, findChar_head j lbrace hh]
    rfl
  have hrfj : rfindChar j rbrace = (j.length : Int) - 1 :=
    rfindChar_getLast rbrace j hl
  have hrf1 : rfindChar (pre ++ j) rbrace =
      pre.length + ((j.length : Int) - 1) := by
    rw [rfindChar_append_right rbrace pre j (by rw [hrfj]; omega), hrfj]
  have hrf2 : rfindChar (pre ++ j) ']' ≤ pre.length + ((j.length : Int) - 1) := by
    have hb := rfindChar_lt_length ']' (pre ++ j)
    rw [hlen] at hb
    push_cast at hb ⊢
    omega
  simp only [jsonSpan]
  rw [hf1, hrf1, max_eq_left hrf2]
  have hstart : min (0 + pre.length)
      (match findChar (pre ++ j) '[' with
       | some i => i
       | none => (pre ++ j).length) = pre.length := by
    rw [findChar_append_of_not_mem '[' pre j hosb]
    cases hk : findChar j '[' with
    | none => simp [hk, hlen]
    | some k => simp [hk]
  rw [hstart]
  rw [if_pos ⟨by rw [hlen]; omega, by omega⟩]
  have htake : (((pre.length : Int) + ((j.length : Int) - 1)).toNat + 1 -
      pre.length) = j.length := by omega
  rw [List.drop_left pre j, htake, List.take_length]

lemma clean_json_id (j : List Char)
    (hh : j.head? = some lbrace) (hl : j.getLast? = some rbrace) :
    _clean_json j = j := by
  have hne : j ≠ [] := head_not_nil hh
  have hlen : 1 ≤ j.length := List.length_pos.mpr hne
  have hstrip : pstrip j = j :=
    pstrip_eq_self j lbrace rbrace hh rfl hl rfl
  have hsw1 : startswith j ("```json".toList) = false :=
    startswith_false_of_head_ne j _ lbrace '`' hh rfl (by decide)
  have hsw2 : startswith j ("```".toList) = false :=
    startswith_false_of_head_ne j _ lbrace '`' hh rfl (by decide)
  have hend : endswith j ("```".toList) = false :=
    endswith_false_of_last_ne j _ rbrace '`' hl rfl (by decide)
  have hfind : findChar j lbrace = some 0 := findChar_head j lbrace hh
  have hrfind : rfindChar j rbrace = (j.length : Int) - 1 :=
    rfindChar_getLast rbrace j hl
  have hrb : rfindChar j ']' ≤ (j.length : Int) - 1 := by
    have := rfindChar_lt_length ']' j
    omega
  simp only [_clean_json]
  rw [hstrip, hsw1, hsw2]
  simp only [Bool.false_eq_true, if_false]
  rw [hend]
  simp only [Bool.false_eq_true, if_false]
  rw [hstrip]
  have h := jsonSpan_append [] j (by simp) hh hl
  simpa using h

lemma pstrip_append_space (l : List Char) (d : Char) (hd : isPySpace d = true)
    (c e : Char) (hh : l.head? = some c) (hcs : isPySpace c = false)
    (hl : l.getLast? = some e) (hes : isPySpace e = false) :
    pstrip (l ++ [d]) = l := by
  unfold pstrip
  have h1 : (l ++ [d]).dropWhile isPySpace = l ++ [d] := by
    cases l with
    | nil => simp at hh
    | cons x xs =>
        simp only [List.head?_cons, Option.some.injEq] at hh
        subst hh
        rw [List.cons_append, List.dropWhile_cons, if_neg (by simp [hcs])]
  rw [h1]
  have h2 : (l ++ [d]).reverse.dropWhile isPySpace = l.reverse := by
    rw [List.reverse_append]
    simp only [List.reverse_singleton, List.singleton_append]
    rw [List.dropWhile_cons, if_pos (by simp [hd])]
    have hrev : l.reverse.head? = some e := by rw [List.head?_reverse, hl]
    cases hrv : l.reverse with
    | nil => rfl
    | cons x xs =>
        rw [hrv] at hrev
        simp only [List.head?_cons, Option.some.injEq] at hrev
        subst hrev
        rw [List.dropWhile_cons, if_neg (by simp [hes])]
  rw [h2, List.reverse_reverse]

lemma clean_json_wrapped (p0 : Char) (prest j : List Char)
    (h0s : isPySpace p0 = false) (h0b : p0 ≠ '`')
    (hpb : ∀ c ∈ p0 :: prest, c ≠ lbrace ∧ c ≠ rbrace ∧ c ≠ '[' ∧ c ≠ ']')
    (hh : j.head? = some lbrace) (hl : j.getLast? = some rbrace) :
    _clean_json ((p0 :: prest) ++ "```json\n".toList ++ j ++ "\n```".toList) =
      j := by
  have hGsplit : ("\n```".toList : List Char) = ['\n'] ++ "```".toList := rfl
  have hwh : ((p0 :: prest) ++ "```json\n".toList ++ j ++
      "\n```".toList).head? = some p0 := rfl
  have hwl : ((p0 :: prest) ++ "```json\n".toList ++ j ++
      "\n```".toList).getLast? = some '`' := by
    rw [List.getLast?_append, List.getLast?_append, List.getLast?_append]
    rfl
  have hstrip1 : pstrip ((p0 :: prest) ++ "```json\n".toList ++ j ++
      "\n```".toList) = (p0 :: prest) ++ "```json\n".toList ++ j ++
      "\n```".toList :=
    pstrip_eq_self _ p0 '`' hwh h0s hwl rfl
  have hsw1 : startswith ((p0 :: prest) ++ "```json\n".toList ++ j ++
      "\n```".toList) ("```json".toList) = false :=
    startswith_false_of_head_ne _ _ p0 '`' hwh rfl (fun h => h0b h.symm)
  have hsw2 : startswith ((p0 :: prest) ++ "```json\n".toList ++ j ++
      "\n```".toList) ("```".toList) = false :=
    startswith_false_of_head_ne _ _ p0 '`' hwh rfl (fun h => h0b h.symm)
  have hsplit : (p0 :: prest) ++ "```json\n".toList ++ j ++ "\n```".toList =
      ((p0 :: prest) ++ "```json\n".toList ++ j ++ ['\n']) ++ "```".toList := by
    rw [hGsplit]
    simp [List.append_assoc]
  have hend : endswith ((p0 :: prest) ++ "```json\n".toList ++ j ++
      "\n```".toList) ("```".toList) = true := by
    rw [hsplit]
    exact endswith_append_self _ _
  have htake3 : ((p0 :: prest) ++ "```json\n".toList ++ j ++
      "\n```".toList).take
      (((p0 :: prest) ++ "```json\n".toList ++ j ++ "\n```".toList).length - 3) =
      (p0 :: prest) ++ "```json\n".toList ++ j ++ ['\n'] := by
    rw [hsplit, List.length_append]
    rw [show ("```".toList : List Char).length = 3 from rfl]
    rw [Nat.add_sub_cancel, List.take_left]
  have hUh : ((p0 :: prest) ++ "```json\n".toList ++ j).head? = some p0 := rfl
  have hUl : ((p0 :: prest) ++ "```json\n".toList ++ j).getLast? =
      some rbrace := by
    rw [List.getLast?_append, List.getLast?_append, hl]
    rfl
  have hA : (p0 :: prest) ++ "```json\n".toList ++ j ++ ['\n'] =
      ((p0 :: prest) ++ "```json\n".toList ++ j) ++ ['\n'] := by
    simp [List.append_assoc]
  have hstrip2 : pstrip ((p0 :: prest) ++ "```json\n".toList ++ j ++ ['\n']) =
      (p0 :: prest) ++ "```json\n".toList ++ j := by
    rw [hA]
    exact pstrip_append_space _ '\n' rfl p0 rbrace hUh h0s hUl rfl
  have hU2 : (p0 :: prest) ++ "```json\n".toList ++ j =
      ((p0 :: prest) ++ "```json\n".toList) ++ j := by
    simp [List.append_assoc]
  have hpreb : ∀ c ∈ (p0 :: prest) ++ "```json\n".toList,
      c ≠ lbrace ∧ c ≠ rbrace ∧ c ≠ '[' ∧ c ≠ ']' := by
    have hF : ∀ c ∈ ("```json\n".toList : List Char),
        c ≠ lbrace ∧ c ≠ rbrace ∧ c ≠ '[' ∧ c ≠ ']' := by decide
    intro c hc
    rcases List.mem_append.mp hc with h | h
    · exact hpb c h
    · exact hF c h
  have hspan : jsonSpan ((p0 :: prest) ++ "```json\n".toList ++ j) = j := by
    rw [hU2]
    exact jsonSpan_append _ j hpreb hh hl
  simp only [_clean_json]
  rw [hstrip1, hsw1, hsw2]
  simp only [Bool.false_eq_true, if_false]
  rw [hend]
  rw [if_pos (show (true : Bool) = true from rfl)]
  rw [htake3, hstrip2]
  exact hspan

/-- Claim C9: Output Reconciler round-trip.  If a JSON object text parses
strictly into the expected type, then wrapping it in markdown code
fences preceded by prose (text that starts with a printable non-backtick
character and contains no JSON delimiter characters) and parsing the
wrapped string yields the same value as parsing the bare JSON. -/
theorem c9_roundtrip (decode : List Char → Except PyError PyVal)
    (expected_type : PydModel) (j : List Char) (p0 : Char)
    (prest : List Char) (v : PydInstance)
    (hh : j.head? = some lbrace) (hl : j.getLast? = some rbrace)
    (h0s : isPySpace p0 = false) (h0b : p0 ≠ '`')
    (hpb : ∀ c ∈ p0 :: prest, c ≠ lbrace ∧ c ≠ rbrace ∧ c ≠ '[' ∧ c ≠ ']')
    (hparse : parse decode j expected_type = .ok v) :
    parse decode ((p0 :: prest) ++ "```json\n".toList ++ j ++ "\n```".toList)
      expected_type = .ok v := by
  have h1 := clean_json_wrapped p0 prest j h0s h0b hpb hh hl
  have h2 := clean_json_id j hh hl
  simp only [parse] at hparse ⊢
  rw [h1]
  rw [h2] at hparse
  exact hparse

/-- Witness for C9: a concrete JSON object wrapped in fences after the
prose `"Here is the result: "` parses to the same instance as the bare
JSON, for a decoder defined at that JSON text and a model whose single
field carries a default. -/
theorem c9_witness :
    parse
      (fun s => if s = ("\x7b\"a\": 1\x7d".toList : List Char) then
          .ok (.dict [("a", PyVal.int 1)])
        else .error .jsonDecodeError)
      (("Here is the result: ".toList : List Char) ++ "```json\n".toList ++
        ("\x7b\"a\": 1\x7d".toList : List Char) ++ "\n```".toList)
      ⟨[("x", ⟨.str, .value (.str "d")⟩)]⟩ =
      .ok [("x", PyVal.str "d")] :=
  c9_roundtrip _ ⟨[("x", ⟨.str, .value (.str "d")⟩)]⟩
    ("\x7b\"a\": 1\x7d".toList) 'H' ("ere is the result: ".toList)
    [("x", PyVal.str "d")] rfl rfl rfl (by decide) (by decide) rfl
